import Mathlib

/-!
Shallow embedding of the NeuralNetwork repository's drawing-grid component
and version endpoint.

The repository contains three variants of the 28×28 pixel-grid component:
the current `PixelGrid28x28.tsx` (soft brush with line interpolation, the
canonical one, modelled in namespace `PixelGrid`), an earlier pointer-only
variant, and a pressure-based per-cell variant (`src/unnamed/part_002`,
modelled in namespace `PressureGrid`).  The version endpoint
(`src/unnamed/part_001`) and its client (`src/app/page.tsx`) are modelled
in namespace `VersionApi`.

JavaScript numbers are modelled as real numbers; the pressure variant and
the version endpoint involve no square roots, so they are modelled over ℚ
and strings respectively, keeping them fully executable.
-/

namespace PixelGrid

def GRID_SIZE : Nat := 28

def TOTAL_CELLS : Nat := GRID_SIZE * GRID_SIZE

/-- Continuous pointer position relative to the container's top-left corner. -/
structure Point where
  x : ℝ
  y : ℝ

/-- Result of `getCellFromPosition`: target cell and brush intensity. -/
structure Cell where
  row : Nat
  col : Nat
  intensity : ℝ

/-- State of the component: the 784-cell intensity buffer (`grid` React
state), the `isDrawingRef` flag and the `lastPointRef` position. -/
structure GridState where
  grid : List ℝ
  isDrawing : Bool
  lastPoint : Option Point

/-- Initial state: `new Array(TOTAL_CELLS).fill(0)`, not drawing, no last point. -/
def initialState : GridState :=
  { grid := List.replicate TOTAL_CELLS 0, isDrawing := false, lastPoint := none }

/-- Embeds `setCell` of PixelGrid28x28.tsx: merge the new value into the cell
at `row * GRID_SIZE + col` via `Math.min(1, Math.max(previous[index], value))`,
returning the buffer unchanged when the merged value equals the stored one. -/
noncomputable def setCell (g : List ℝ) (row col : Nat) (value : ℝ) : List ℝ :=
  let index := row * GRID_SIZE + col
  let nextValue := min 1 (max (g.getD index 0) value)
  if g.getD index 0 = nextValue then g else g.set index nextValue

/-- Embeds `getCellFromPosition`: floor-divide the position by the cell size,
reject out-of-range rows/columns, and compute the soft-brush intensity from
the Euclidean distance to the cell center with radius `(cellSize/2) * √2`;
a non-positive intensity is rejected. -/
noncomputable def getCellFromPosition (cellSize : ℝ) (p : Point) : Option Cell :=
  let col : ℤ := ⌊p.x / cellSize⌋
  let row : ℤ := ⌊p.y / cellSize⌋
  if row < 0 ∨ (GRID_SIZE : ℤ) ≤ row ∨ col < 0 ∨ (GRID_SIZE : ℤ) ≤ col then none
  else
    let centerX := ((col : ℝ) + 1 / 2) * cellSize
    let centerY := ((row : ℝ) + 1 / 2) * cellSize
    let distance := Real.sqrt ((p.x - centerX) ^ 2 + (p.y - centerY) ^ 2)
    let maxDistance := (cellSize / 2) * Real.sqrt 2
    let intensity := max 0 (1 - distance / maxDistance)
    if intensity ≤ 0 then none
    else some { row := row.toNat, col := col.toNat, intensity := intensity }

/-- Embeds `paintAtPosition`: look up the target cell and merge its intensity,
doing nothing when the sample is rejected. -/
noncomputable def paintAtPosition (cellSize : ℝ) (p : Point) (g : List ℝ) : List ℝ :=
  match getCellFromPosition cellSize p with
  | none => g
  | some cell => setCell g cell.row cell.col cell.intensity

/-- Euclidean distance between two points (`Math.hypot` of the deltas). -/
noncomputable def ptDist (a b : Point) : ℝ :=
  Real.sqrt ((b.x - a.x) ^ 2 + (b.y - a.y) ^ 2)

/-- Number of interpolation steps of `paintLineToPosition`:
`Math.max(1, Math.ceil(distance / (cellSize / 2)))`. -/
noncomputable def strokeSteps (cellSize : ℝ) (prev pos : Point) : Nat :=
  (max 1 ⌈ptDist prev pos / (cellSize / 2)⌉).toNat

/-- Point at parameter `t` on the segment from `prev` to `pos`
(`previous + delta * t` coordinatewise). -/
noncomputable def lerpPoint (prev pos : Point) (t : ℝ) : Point :=
  { x := prev.x + (pos.x - prev.x) * t, y := prev.y + (pos.y - prev.y) * t }

/-- Sub-sample points of the interpolation loop of `paintLineToPosition`:
the points at parameters `t = step / steps` for `step = 1 .. steps`. -/
noncomputable def strokePoints (cellSize : ℝ) (prev pos : Point) : List Point :=
  (List.range (strokeSteps cellSize prev pos)).map fun (k : Nat) =>
    lerpPoint prev pos (((k : ℝ) + 1) / (strokeSteps cellSize prev pos : ℝ))

/-- Embeds `paintLineToPosition`: with no previous point, paint only the
current position; otherwise paint every interpolated sub-sample from the
previous position to the new one.  Either way the last point becomes `p`. -/
noncomputable def paintLineToPosition (cellSize : ℝ) (p : Point) (s : GridState) : GridState :=
  match s.lastPoint with
  | none =>
      { s with grid := paintAtPosition cellSize p s.grid, lastPoint := some p }
  | some prev =>
      { s with
          grid := (strokePoints cellSize prev p).foldl
            (fun g q => paintAtPosition cellSize q g) s.grid,
          lastPoint := some p }

/-- Embeds `stopDrawing`: reset the drawing flag and forget the last point. -/
def stopDrawing (s : GridState) : GridState :=
  { s with isDrawing := false, lastPoint := none }

/-- Embeds `clear`: refill the buffer with zeros and stop drawing. -/
def clear (s : GridState) : GridState :=
  stopDrawing { s with grid := List.replicate TOTAL_CELLS 0 }

/-- Embeds the `getValues` handle (`[...gridRef.current]`): the current buffer,
row-major.  The defensive-copy aspect is modelled separately on `Heap`. -/
def getValues (s : GridState) : List ℝ :=
  s.grid

/-- Input events the component reacts to.  An event carrying a `Point` is one
whose handler successfully resolved a position relative to the container. -/
inductive GridEvent where
  | pointerDown (p : Point)
  | pointerMove (p : Point)
  | pointerUp
  | pointerCancel
  | pointerLeave
  | touchStart (p : Point)
  | touchMove (p : Point)
  | touchEnd (p : Point)
  | touchCancel
  | clearButton

/-- One step of the component's event handling, following the handlers of
PixelGrid28x28.tsx: `handlePointerDown` sets the drawing flag then paints;
`handlePointerMove`/`handleTouchMove` paint only while drawing;
up/cancel/leave stop drawing; `handleTouchStart` also resets the last point;
`handleTouchEnd` paints a final segment while drawing, then stops. -/
noncomputable def step (cellSize : ℝ) (s : GridState) (e : GridEvent) : GridState :=
  match e with
  | .pointerDown p => paintLineToPosition cellSize p { s with isDrawing := true }
  | .pointerMove p => if s.isDrawing then paintLineToPosition cellSize p s else s
  | .pointerUp => stopDrawing s
  | .pointerCancel => stopDrawing s
  | .pointerLeave => stopDrawing s
  | .touchStart p =>
      paintLineToPosition cellSize p { s with isDrawing := true, lastPoint := none }
  | .touchMove p => if s.isDrawing then paintLineToPosition cellSize p s else s
  | .touchEnd p =>
      stopDrawing (if s.isDrawing then paintLineToPosition cellSize p s else s)
  | .touchCancel => stopDrawing s
  | .clearButton => clear s

/-- Runs a sequence of events from a state. -/
noncomputable def run (cellSize : ℝ) (s : GridState) (es : List GridEvent) : GridState :=
  es.foldl (step cellSize) s

/-- Grid buffer invariant: 784 entries, each in [0, 1]. -/
def gridInv (g : List ℝ) : Prop :=
  g.length = TOTAL_CELLS ∧ ∀ v ∈ g, 0 ≤ v ∧ v ≤ 1

/-- Center of the cell containing a position, as the spec words it:
`((col + 0.5) * S, (row + 0.5) * S)` for `col = floor(x / S)`,
`row = floor(y / S)`. -/
noncomputable def cellCenter (cellSize : ℝ) (p : Point) : Point :=
  { x := ((⌊p.x / cellSize⌋ : ℝ) + 1 / 2) * cellSize,
    y := ((⌊p.y / cellSize⌋ : ℝ) + 1 / 2) * cellSize }

/-- Brush intensity as the spec words it: `max(0, 1 - distance / maxRadius)`
with `distance` the Euclidean distance from the sample to the containing
cell's center and `maxRadius = (S / 2) * sqrt 2`. -/
noncomputable def brushIntensity (cellSize : ℝ) (p : Point) : ℝ :=
  max 0 (1 - ptDist p (cellCenter cellSize p) / (cellSize / 2 * Real.sqrt 2))

/-- Index of the cell containing a position, row-major. -/
noncomputable def cellIndex (cellSize : ℝ) (p : Point) : Nat :=
  (⌊p.y / cellSize⌋).toNat * GRID_SIZE + (⌊p.x / cellSize⌋).toNat

end PixelGrid

namespace PressureGrid

/-- Embeds `setCell` of the pressure variant (src/unnamed/part_002): the new
value overwrites the stored one (no max-merge). -/
def setCell (g : List ℚ) (row col : Nat) (value : ℚ) : List ℚ :=
  let index := row * PixelGrid.GRID_SIZE + col
  if g.getD index 0 = value then g else g.set index value

/-- Embeds `paintFromEvent` of the pressure variant: a positive reported
pressure is used as is, any other pressure (zero included) falls back to 1;
the result is clamped to [0, 1] and written to the cell. -/
def paintFromEvent (pressure : ℚ) (row col : Nat) (g : List ℚ) : List ℚ :=
  let p := if 0 < pressure then pressure else 1
  let intensity := min 1 (max 0 p)
  setCell g row col intensity

/-- Zero-filled 784-cell buffer of the pressure variant. -/
def zeroGrid : List ℚ :=
  List.replicate PixelGrid.TOTAL_CELLS 0

end PressureGrid

namespace VersionApi

/-- Value of the longest leading digit run, or `none` when there is none
(`Number.parseInt` yields NaN exactly when no leading digit exists). -/
def digitsValue (cs : List Char) : Option Nat :=
  let ds := cs.takeWhile (fun c => c.isDigit)
  if ds.isEmpty then none
  else some (ds.foldl (fun acc c => acc * 10 + (c.toNat - Char.toNat (Char.ofNat 48))) 0)

/-- Embeds `Number.parseInt(s, 10)` on an already trimmed string: an optional
sign followed by a digit run; `none` stands for NaN. -/
def jsParseInt (s : String) : Option Int :=
  match s.data with
  | List.cons (Char.mk 45 _) rest => (digitsValue rest).map fun n => -(n : Int)
  | List.cons (Char.mk 43 _) rest => (digitsValue rest).map fun n => (n : Int)
  | cs => (digitsValue cs).map fun n => (n : Int)

/-- Embeds the `.trim()` applied to the git output: strip leading and
trailing whitespace (written over the character list so that it is
executable). -/
def jsTrim (s : String) : String :=
  { data := ((s.data.dropWhile Char.isWhitespace).reverse.dropWhile
      Char.isWhitespace).reverse }

def MAJOR_VERSION : Nat := 1

/-- Embeds `getMinorVersion` (src/unnamed/part_001): `none` as `gitOutput`
stands for `execSync` throwing; otherwise the trimmed output is parsed and a
NaN parse falls back to 0. -/
def getMinorVersion (gitOutput : Option String) : Int :=
  match gitOutput with
  | none => 0
  | some out =>
      match jsParseInt (jsTrim out) with
      | none => 0
      | some n => n

/-- Embeds the `GET` route handler: the JSON body's version string
`MAJOR_VERSION.minorVersion`. -/
def apiVersionGET (gitOutput : Option String) : String :=
  toString MAJOR_VERSION ++ "." ++ toString (getMinorVersion gitOutput)

/-- Outcome of the client's `fetch` of /api/version as seen by `fetchVersion`
in src/app/page.tsx: a network/parse error, a non-ok HTTP response, or a
parsed JSON body whose `version` field may be absent. -/
inductive FetchOutcome where
  | netError
  | httpError
  | ok (version : Option String)

/-- Embeds `fetchVersion`: errors and non-ok responses are caught and set the
literal "1.0"; a present, truthy version string is adopted; a missing or
empty (falsy) one leaves the current state. -/
def fetchVersion (outcome : FetchOutcome) (current : String) : String :=
  match outcome with
  | .netError => "1.0"
  | .httpError => "1.0"
  | .ok none => current
  | .ok (some v) => if v = "" then current else v

/-- Initial React state of the version badge. -/
def initialVersion : String := "1.0"

end VersionApi

namespace PixelGrid

/-- Small heap of JavaScript arrays, to express aliasing: an array reference
is an index into the heap. -/
structure Heap where
  arrays : List (List ℝ)

/-- Dereferences an array. -/
def readArray (h : Heap) (r : Nat) : List ℝ :=
  h.arrays.getD r []

/-- Allocates a fresh array holding the given values and returns its
reference. -/
def allocArray (h : Heap) (l : List ℝ) : Nat × Heap :=
  (h.arrays.length, { arrays := h.arrays ++ [l] })

/-- Writes one slot of an array in place through its reference. -/
def writeArray (h : Heap) (r : Nat) (i : Nat) (v : ℝ) : Heap :=
  { arrays := h.arrays.set r ((readArray h r).set i v) }

/-- Embeds the `getValues` handle at the heap level: `[...gridRef.current]`
allocates a fresh array holding a copy of the internal buffer and returns a
reference to the copy. -/
def getValuesCopy (h : Heap) (gridRef : Nat) : Nat × Heap :=
  allocArray h (readArray h gridRef)

end PixelGrid

namespace PixelGrid

theorem setCell_def (g : List ℝ) (r c : Nat) (v : ℝ) :
    setCell g r c v =
      if g.getD (r * GRID_SIZE + c) 0 = min 1 (max (g.getD (r * GRID_SIZE + c) 0) v)
      then g
      else g.set (r * GRID_SIZE + c) (min 1 (max (g.getD (r * GRID_SIZE + c) 0) v)) :=
  rfl

theorem getD_set_ne (g : List ℝ) (a : ℝ) {i j : Nat} (h : i ≠ j) :
    (g.set i a).getD j 0 = g.getD j 0 := by
  simp [List.getD_eq_getElem?_getD, List.getElem?_set_ne h]

theorem getD_bounds_of_mem {g : List ℝ} (h : ∀ v ∈ g, 0 ≤ v ∧ v ≤ 1) (i : Nat) :
    0 ≤ g.getD i 0 ∧ g.getD i 0 ≤ 1 := by
  by_cases hi : i < g.length
  · have hv : g.getD i 0 = g[i] := by
      simp [List.getD_eq_getElem?_getD, List.getElem?_eq_getElem hi]
    rw [hv]
    exact h _ (List.getElem_mem hi)
  · have hnone : g[i]? = none := List.getElem?_eq_none (by omega)
    have hv : g.getD i 0 = 0 := by simp [List.getD_eq_getElem?_getD, hnone]
    rw [hv]
    norm_num

theorem setCell_getD_ne (g : List ℝ) (r c : Nat) (v : ℝ) {j : Nat}
    (hj : j ≠ r * GRID_SIZE + c) : (setCell g r c v).getD j 0 = g.getD j 0 := by
  rw [setCell_def]
  split
  · rfl
  · exact getD_set_ne g _ (Ne.symm hj)

theorem setCell_getD_mono (g : List ℝ) (r c : Nat) (v : ℝ) (i : Nat)
    (h1 : g.getD i 0 ≤ 1) :
    g.getD i 0 ≤ (setCell g r c v).getD i 0 ∧ (setCell g r c v).getD i 0 ≤ 1 := by
  by_cases hij : i = r * GRID_SIZE + c
  · subst hij
    rw [setCell_def]
    split
    · exact ⟨le_refl _, h1⟩
    · by_cases hlt : r * GRID_SIZE + c < g.length
      · have hv : (g.set (r * GRID_SIZE + c)
              (min 1 (max (g.getD (r * GRID_SIZE + c) 0) v))).getD (r * GRID_SIZE + c) 0
            = min 1 (max (g.getD (r * GRID_SIZE + c) 0) v) := by
          simp [List.getD_eq_getElem?_getD, List.getElem?_set_self hlt]
        rw [hv]
        exact ⟨le_min h1 (le_max_left _ _), min_le_left _ _⟩
      · rw [List.set_eq_of_length_le (by omega)]
        exact ⟨le_refl _, h1⟩
  · rw [setCell_getD_ne g r c v hij]
    exact ⟨le_refl _, h1⟩

theorem setCell_gridInv {g : List ℝ} (r c : Nat) (v : ℝ) (h : gridInv g) :
    gridInv (setCell g r c v) := by
  obtain ⟨hlen, hmem⟩ := h
  rw [setCell_def]
  split
  · exact ⟨hlen, hmem⟩
  · refine ⟨by simpa using hlen, ?_⟩
    intro w hw
    rcases List.mem_or_eq_of_mem_set hw with hmem' | heq
    · exact hmem w hmem'
    · subst heq
      have h0 : 0 ≤ g.getD (r * GRID_SIZE + c) 0 := (getD_bounds_of_mem hmem _).1
      exact ⟨le_min (by norm_num) (le_trans h0 (le_max_left _ _)), min_le_left _ _⟩

theorem paintAtPosition_gridInv (cellSize : ℝ) (p : Point) {g : List ℝ}
    (h : gridInv g) : gridInv (paintAtPosition cellSize p g) := by
  unfold paintAtPosition
  cases getCellFromPosition cellSize p with
  | none => exact h
  | some cell => exact setCell_gridInv _ _ _ h

theorem foldl_paint_gridInv (cellSize : ℝ) (ps : List Point) {g : List ℝ}
    (h : gridInv g) :
    gridInv (ps.foldl (fun g q => paintAtPosition cellSize q g) g) := by
  induction ps generalizing g with
  | nil => exact h
  | cons q ps ih => exact ih (paintAtPosition_gridInv cellSize q h)

theorem paintLineToPosition_gridInv (cellSize : ℝ) (p : Point) {s : GridState}
    (h : gridInv s.grid) : gridInv (paintLineToPosition cellSize p s).grid := by
  unfold paintLineToPosition
  cases s.lastPoint with
  | none => exact paintAtPosition_gridInv cellSize p h
  | some prev => exact foldl_paint_gridInv cellSize _ h

theorem clear_grid_eq (s : GridState) : (clear s).grid = List.replicate TOTAL_CELLS 0 :=
  rfl

theorem clear_gridInv (s : GridState) : gridInv (clear s).grid := by
  rw [clear_grid_eq]
  refine ⟨by simp, ?_⟩
  intro v hv
  have hv0 : v = 0 := List.eq_of_mem_replicate hv
  subst hv0
  norm_num

theorem step_gridInv (cellSize : ℝ) (e : GridEvent) {s : GridState}
    (h : gridInv s.grid) : gridInv (step cellSize s e).grid := by
  cases e with
  | pointerDown p =>
      exact paintLineToPosition_gridInv cellSize p (s := { s with isDrawing := true }) h
  | pointerMove p =>
      show gridInv (if s.isDrawing = true then paintLineToPosition cellSize p s else s).grid
      split
      · exact paintLineToPosition_gridInv cellSize p h
      · exact h
  | pointerUp => exact h
  | pointerCancel => exact h
  | pointerLeave => exact h
  | touchStart p =>
      exact paintLineToPosition_gridInv cellSize p
        (s := { s with isDrawing := true, lastPoint := none }) h
  | touchMove p =>
      show gridInv (if s.isDrawing = true then paintLineToPosition cellSize p s else s).grid
      split
      · exact paintLineToPosition_gridInv cellSize p h
      · exact h
  | touchEnd p =>
      show gridInv (if s.isDrawing = true then paintLineToPosition cellSize p s else s).grid
      split
      · exact paintLineToPosition_gridInv cellSize p h
      · exact h
  | touchCancel => exact h
  | clearButton => exact clear_gridInv s

theorem run_gridInv (cellSize : ℝ) (es : List GridEvent) {s : GridState}
    (h : gridInv s.grid) : gridInv (run cellSize s es).grid := by
  induction es generalizing s with
  | nil => exact h
  | cons e es ih => exact ih (step_gridInv cellSize e h)

theorem initialState_gridInv : gridInv initialState.grid := by
  refine ⟨by simp [initialState], ?_⟩
  intro v hv
  have hv0 : v = 0 := List.eq_of_mem_replicate hv
  subst hv0
  norm_num

end PixelGrid

namespace PressureGrid

theorem setCell_overwrite_def (g : List ℚ) (r c : Nat) (v : ℚ) :
    setCell g r c v =
      if g.getD (r * PixelGrid.GRID_SIZE + c) 0 = v then g
      else g.set (r * PixelGrid.GRID_SIZE + c) v :=
  rfl

theorem zeroGrid_getD (i : Nat) : zeroGrid.getD i 0 = 0 := by
  show (List.replicate PixelGrid.TOTAL_CELLS (0:ℚ)).getD i 0 = 0
  simp only [List.getD_eq_getElem?_getD, List.getElem?_replicate]
  split <;> simp

theorem zeroGrid_length : zeroGrid.length = 784 := by
  show (List.replicate PixelGrid.TOTAL_CELLS (0:ℚ)).length = 784
  rw [List.length_replicate]
  norm_num [PixelGrid.TOTAL_CELLS, PixelGrid.GRID_SIZE]

end PressureGrid

namespace PixelGrid

theorem getD_replicate_zero (n i : Nat) : (List.replicate n (0:ℝ)).getD i 0 = 0 := by
  simp only [List.getD_eq_getElem?_getD, List.getElem?_replicate]
  split <;> simp

/-- C1 (counterexample): in the pressure variant (src/unnamed/part_002),
`setCell` overwrites the stored value, so painting a cell holding 1 with the
lower intensity 3/10 strictly decreases it, refuting the claim that every
`setCell` merges via max and never decreases a cell. -/
theorem pressure_setCell_decreases :
    (PressureGrid.setCell (PressureGrid.setCell PressureGrid.zeroGrid 0 0 1) 0 0
        (3 / 10)).getD 0 0
      < (PressureGrid.setCell PressureGrid.zeroGrid 0 0 1).getD 0 0 := by
  have hidx : (0 * GRID_SIZE + 0 : Nat) = 0 := by simp
  have h1 : PressureGrid.setCell PressureGrid.zeroGrid 0 0 1
      = PressureGrid.zeroGrid.set 0 1 := by
    rw [PressureGrid.setCell_overwrite_def, hidx, PressureGrid.zeroGrid_getD]
    norm_num
  have h0 : 0 < PressureGrid.zeroGrid.length := by
    rw [PressureGrid.zeroGrid_length]
    norm_num
  have h1d : (PressureGrid.zeroGrid.set 0 1).getD 0 0 = 1 := by
    simp [List.getD_eq_getElem?_getD, List.getElem?_set_self h0]
  have h2 : PressureGrid.setCell (PressureGrid.zeroGrid.set 0 1) 0 0 (3 / 10)
      = (PressureGrid.zeroGrid.set 0 1).set 0 (3 / 10) := by
    rw [PressureGrid.setCell_overwrite_def, hidx, h1d]
    norm_num
  have h0s : 0 < (PressureGrid.zeroGrid.set 0 1).length := by
    rw [List.length_set]
    exact h0
  have h2d : ((PressureGrid.zeroGrid.set 0 1).set 0 (3 / 10)).getD 0 0 = 3 / 10 := by
    simp [List.getD_eq_getElem?_getD, List.getElem?_set_self h0s,
      List.getElem?_set_self h0]
  rw [h1, h2, h1d, h2d]
  norm_num

/-- C1 (amended): in the PixelGrid28x28.tsx component, `setCell` merges via
`min(1, max(existing, value))`, so under any sequence of `setCell`
operations (any rows, columns and intensities, decreasing ones included) no
cell's stored value ever decreases, and it stays at most 1; only `clear`
resets values.  The pressure variant's `setCell` overwrites instead. -/
theorem setCell_never_decreases (g : List ℝ) (i : Nat) (h1 : g.getD i 0 ≤ 1)
    (ops : List (Nat × Nat × ℝ)) :
    g.getD i 0 ≤ (ops.foldl (fun g o => setCell g o.1 o.2.1 o.2.2) g).getD i 0 ∧
    (ops.foldl (fun g o => setCell g o.1 o.2.1 o.2.2) g).getD i 0 ≤ 1 := by
  induction ops generalizing g with
  | nil => exact ⟨le_refl _, h1⟩
  | cons o ops ih =>
      obtain ⟨hmono, hle⟩ := setCell_getD_mono g o.1 o.2.1 o.2.2 i h1
      obtain ⟨ih1, ih2⟩ := ih (setCell g o.1 o.2.1 o.2.2) hle
      exact ⟨le_trans hmono ih1, ih2⟩

theorem setCell_never_decreases_witness :
    (List.replicate 784 (0:ℝ)).getD 0 0 ≤
      (([((0:Nat), (0:Nat), (1:ℝ)/2), ((0:Nat), (0:Nat), (3:ℝ)/10)]).foldl
        (fun g o => setCell g o.1 o.2.1 o.2.2) (List.replicate 784 0)).getD 0 0 :=
  (setCell_never_decreases (List.replicate 784 0) 0
    (by rw [getD_replicate_zero]; norm_num) _).1

/-- C2: after any sequence of input events from the initial state,
`getValues` returns exactly 784 entries, each in [0, 1]. -/
theorem grid_values_invariant (cellSize : ℝ) (es : List GridEvent) :
    (getValues (run cellSize initialState es)).length = 784 ∧
    ∀ v ∈ getValues (run cellSize initialState es), 0 ≤ v ∧ v ≤ 1 := by
  obtain ⟨h1, h2⟩ := run_gridInv cellSize es initialState_gridInv
  refine ⟨?_, h2⟩
  rw [show getValues (run cellSize initialState es) = (run cellSize initialState es).grid
    from rfl, h1]
  norm_num [TOTAL_CELLS, GRID_SIZE]

/-- C6: `clear` works in any state: it zeroes all 784 cells (so `getValues`
reads 0 at every row-major index), forces the idle stroke state (drawing
flag off, last point forgotten), and is idempotent. -/
theorem clear_resets (s : GridState) :
    (clear s).isDrawing = false ∧ (clear s).lastPoint = none ∧
    (∀ r c : Nat, r < 28 → c < 28 → (getValues (clear s)).getD (r * 28 + c) 0 = 0) ∧
    clear (clear s) = clear s := by
  refine ⟨rfl, rfl, ?_, rfl⟩
  intro r c hr hc
  show (List.replicate TOTAL_CELLS (0:ℝ)).getD (r * 28 + c) 0 = 0
  exact getD_replicate_zero _ _

theorem clear_resets_witness :
    (getValues (clear initialState)).getD (3 * 28 + 5) 0 = 0 :=
  (clear_resets initialState).2.2.1 3 5 (by norm_num) (by norm_num)

/-- C7: `getValues` returns an independent copy: at the heap level it
allocates a fresh array holding the same values as the internal buffer,
leaves the internal buffer untouched, and any write through the returned
reference leaves the internal buffer's contents unchanged. -/
theorem getValues_defensive_copy (h : Heap) (gridRef : Nat)
    (href : gridRef < h.arrays.length) :
    readArray (getValuesCopy h gridRef).2 (getValuesCopy h gridRef).1
      = readArray h gridRef ∧
    readArray (getValuesCopy h gridRef).2 gridRef = readArray h gridRef ∧
    (getValuesCopy h gridRef).1 ≠ gridRef ∧
    ∀ (i : Nat) (v : ℝ),
      readArray (writeArray (getValuesCopy h gridRef).2 (getValuesCopy h gridRef).1 i v)
          gridRef
        = readArray h gridRef := by
  refine ⟨?_, ?_, ?_, ?_⟩
  · show (h.arrays ++ [readArray h gridRef]).getD h.arrays.length [] = readArray h gridRef
    simp [List.getD_eq_getElem?_getD, List.getElem?_concat_length]
  · show (h.arrays ++ [readArray h gridRef]).getD gridRef [] = readArray h gridRef
    simp [readArray, List.getD_eq_getElem?_getD, List.getElem?_append_left href]
  · show h.arrays.length ≠ gridRef
    omega
  · intro i v
    show (((h.arrays ++ [readArray h gridRef]).set h.arrays.length _)).getD gridRef []
        = readArray h gridRef
    simp [readArray, List.getD_eq_getElem?_getD,
      List.getElem?_set_ne (show h.arrays.length ≠ gridRef by omega),
      List.getElem?_append_left href]

theorem getValues_defensive_copy_witness :
    readArray (getValuesCopy { arrays := [[(1:ℝ), 0]] } 0).2 0
      = readArray { arrays := [[(1:ℝ), 0]] } 0 :=
  (getValues_defensive_copy { arrays := [[(1:ℝ), 0]] } 0 (by simp)).2.1

/-- C8 (counterexample): in the pressure variant (src/unnamed/part_002), a
pointer sample reporting zero pressure is not a no-op: `paintFromEvent`
falls back to pressure 1 and paints the cell at full intensity. -/
theorem zero_pressure_paints :
    PressureGrid.paintFromEvent 0 0 0 PressureGrid.zeroGrid ≠ PressureGrid.zeroGrid ∧
    (PressureGrid.paintFromEvent 0 0 0 PressureGrid.zeroGrid).getD 0 0 = 1 := by
  have he : PressureGrid.paintFromEvent 0 0 0 PressureGrid.zeroGrid
      = PressureGrid.zeroGrid.set 0 1 := by
    have h1 : PressureGrid.paintFromEvent 0 0 0 PressureGrid.zeroGrid
        = PressureGrid.setCell PressureGrid.zeroGrid 0 0 1 := rfl
    rw [h1, PressureGrid.setCell_overwrite_def,
      show (0 * GRID_SIZE + 0 : Nat) = 0 by simp, PressureGrid.zeroGrid_getD]
    norm_num
  have h0 : 0 < PressureGrid.zeroGrid.length := by
    rw [PressureGrid.zeroGrid_length]
    norm_num
  have hgd : (PressureGrid.zeroGrid.set 0 1).getD 0 0 = 1 := by
    simp [List.getD_eq_getElem?_getD, List.getElem?_set_self h0]
  constructor
  · rw [he]
    intro hcontra
    have hh := congrArg (fun l => l.getD 0 0) hcontra
    simp only at hh
    rw [hgd, PressureGrid.zeroGrid_getD] at hh
    norm_num at hh
  · rw [he, hgd]

/-- C8 (amended): no input raises an error; a rejected sample (out-of-bounds
coordinates or non-positive intensity) is a silent no-op on the buffer, but a
pointer sample reporting zero pressure is treated as full pressure and paints
its cell at intensity 1 rather than being a no-op. -/
theorem degenerate_inputs_no_error :
    (∀ (cellSize : ℝ) (p : Point) (g : List ℝ),
        getCellFromPosition cellSize p = none → paintAtPosition cellSize p g = g) ∧
    (∀ (row col : Nat) (g : List ℚ),
        PressureGrid.paintFromEvent 0 row col g = PressureGrid.setCell g row col 1) := by
  constructor
  · intro S p g hnone
    unfold paintAtPosition
    rw [hnone]
  · intro r c g
    rfl

end PixelGrid

namespace PixelGrid

theorem getCellFromPosition_def (cellSize : ℝ) (p : Point) :
    getCellFromPosition cellSize p =
      if ⌊p.y / cellSize⌋ < 0 ∨ (GRID_SIZE : ℤ) ≤ ⌊p.y / cellSize⌋ ∨
          ⌊p.x / cellSize⌋ < 0 ∨ (GRID_SIZE : ℤ) ≤ ⌊p.x / cellSize⌋ then none
      else if
          max 0 (1 -
              Real.sqrt ((p.x - ((⌊p.x / cellSize⌋ : ℝ) + 1 / 2) * cellSize) ^ 2 +
                (p.y - ((⌊p.y / cellSize⌋ : ℝ) + 1 / 2) * cellSize) ^ 2) /
            (cellSize / 2 * Real.sqrt 2)) ≤ 0 then none
      else some
        { row := (⌊p.y / cellSize⌋).toNat, col := (⌊p.x / cellSize⌋).toNat,
          intensity := max 0 (1 -
              Real.sqrt ((p.x - ((⌊p.x / cellSize⌋ : ℝ) + 1 / 2) * cellSize) ^ 2 +
                (p.y - ((⌊p.y / cellSize⌋ : ℝ) + 1 / 2) * cellSize) ^ 2) /
            (cellSize / 2 * Real.sqrt 2)) } :=
  rfl

theorem intensity_eq_brushIntensity (cellSize : ℝ) (p : Point) :
    max 0 (1 -
        Real.sqrt ((p.x - ((⌊p.x / cellSize⌋ : ℝ) + 1 / 2) * cellSize) ^ 2 +
          (p.y - ((⌊p.y / cellSize⌋ : ℝ) + 1 / 2) * cellSize) ^ 2) /
      (cellSize / 2 * Real.sqrt 2))
      = brushIntensity cellSize p := by
  have harg : (((⌊p.x / cellSize⌋ : ℝ) + 1 / 2) * cellSize - p.x) ^ 2 +
      (((⌊p.y / cellSize⌋ : ℝ) + 1 / 2) * cellSize - p.y) ^ 2
      = (p.x - ((⌊p.x / cellSize⌋ : ℝ) + 1 / 2) * cellSize) ^ 2 +
        (p.y - ((⌊p.y / cellSize⌋ : ℝ) + 1 / 2) * cellSize) ^ 2 := by ring
  simp only [brushIntensity, ptDist, cellCenter]
  rw [harg]

theorem getCellFromPosition_none_of_out (cellSize : ℝ) (p : Point)
    (h : ⌊p.x / cellSize⌋ < 0 ∨ (28 : ℤ) ≤ ⌊p.x / cellSize⌋ ∨
      ⌊p.y / cellSize⌋ < 0 ∨ (28 : ℤ) ≤ ⌊p.y / cellSize⌋) :
    getCellFromPosition cellSize p = none := by
  have h28 : (GRID_SIZE : ℤ) = 28 := by norm_num [GRID_SIZE]
  have hcond : ⌊p.y / cellSize⌋ < 0 ∨ (GRID_SIZE : ℤ) ≤ ⌊p.y / cellSize⌋ ∨
      ⌊p.x / cellSize⌋ < 0 ∨ (GRID_SIZE : ℤ) ≤ ⌊p.x / cellSize⌋ := by
    rw [h28]
    tauto
  rw [getCellFromPosition_def, if_pos hcond]

theorem getCellFromPosition_eq (cellSize : ℝ) (p : Point)
    (hin : 0 ≤ ⌊p.x / cellSize⌋ ∧ ⌊p.x / cellSize⌋ < 28 ∧
      0 ≤ ⌊p.y / cellSize⌋ ∧ ⌊p.y / cellSize⌋ < 28) :
    getCellFromPosition cellSize p =
      if 0 < brushIntensity cellSize p
      then some
        { row := (⌊p.y / cellSize⌋).toNat, col := (⌊p.x / cellSize⌋).toNat,
          intensity := brushIntensity cellSize p }
      else none := by
  obtain ⟨hx0, hx1, hy0, hy1⟩ := hin
  have h28 : (GRID_SIZE : ℤ) = 28 := by norm_num [GRID_SIZE]
  have hcond : ¬(⌊p.y / cellSize⌋ < 0 ∨ (GRID_SIZE : ℤ) ≤ ⌊p.y / cellSize⌋ ∨
      ⌊p.x / cellSize⌋ < 0 ∨ (GRID_SIZE : ℤ) ≤ ⌊p.x / cellSize⌋) := by
    rw [h28]
    omega
  rw [getCellFromPosition_def, if_neg hcond, intensity_eq_brushIntensity]
  by_cases hI : brushIntensity cellSize p ≤ 0
  · rw [if_pos hI, if_neg (not_lt.mpr hI)]
  · rw [if_neg hI, if_pos (lt_of_not_le hI)]

theorem getCellFromPosition_some_fields (cellSize : ℝ) (p : Point) (c : Cell)
    (h : getCellFromPosition cellSize p = some c) :
    c.row = (⌊p.y / cellSize⌋).toNat ∧ c.col = (⌊p.x / cellSize⌋).toNat := by
  rw [getCellFromPosition_def] at h
  split at h
  · exact absurd h (by simp)
  · split at h
    · exact absurd h (by simp)
    · have hc := Option.some.inj h
      rw [← hc]
      exact ⟨rfl, rfl⟩

/-- C3: the target cell is `col = floor(x / S)`, `row = floor(y / S)`; when
either lies outside [0, 28) the sample is rejected (`getCellFromPosition`
returns null) and painting at that position leaves any grid unchanged, so no
sample ever writes outside the 784-cell buffer. -/
theorem out_of_range_sample_rejected (cellSize : ℝ) (p : Point)
    (h : ⌊p.x / cellSize⌋ < 0 ∨ (28 : ℤ) ≤ ⌊p.x / cellSize⌋ ∨
      ⌊p.y / cellSize⌋ < 0 ∨ (28 : ℤ) ≤ ⌊p.y / cellSize⌋) :
    getCellFromPosition cellSize p = none ∧
    ∀ g : List ℝ, paintAtPosition cellSize p g = g := by
  have hnone := getCellFromPosition_none_of_out cellSize p h
  refine ⟨hnone, fun g => ?_⟩
  unfold paintAtPosition
  rw [hnone]

theorem out_of_range_sample_rejected_witness :
    getCellFromPosition 14 { x := 400, y := 7 } = none :=
  (out_of_range_sample_rejected 14 { x := 400, y := 7 }
    (Or.inr (Or.inl (by
      rw [show ⌊(400 : ℝ) / 14⌋ = 28 from by norm_num [Int.floor_eq_iff]])))).1

/-- C4: for an in-range sample the lookup yields exactly the cell at the
floor coordinates with intensity `max(0, 1 - distance / maxRadius)` for
`maxRadius = (S / 2) * sqrt 2` and the distance taken from the sample to the
containing cell's center, provided that intensity is positive; a
non-positive intensity makes the sample a no-op for the cell. -/
theorem brush_intensity_characterization (cellSize : ℝ) (p : Point)
    (hin : 0 ≤ ⌊p.x / cellSize⌋ ∧ ⌊p.x / cellSize⌋ < 28 ∧
      0 ≤ ⌊p.y / cellSize⌋ ∧ ⌊p.y / cellSize⌋ < 28) :
    getCellFromPosition cellSize p =
      (if 0 < brushIntensity cellSize p
       then some
        { row := (⌊p.y / cellSize⌋).toNat, col := (⌊p.x / cellSize⌋).toNat,
          intensity := brushIntensity cellSize p }
       else none) ∧
    (brushIntensity cellSize p ≤ 0 → ∀ g : List ℝ, paintAtPosition cellSize p g = g) := by
  have heq := getCellFromPosition_eq cellSize p hin
  refine ⟨heq, fun hI g => ?_⟩
  unfold paintAtPosition
  rw [heq, if_neg (not_lt.mpr hI)]

theorem brush_intensity_characterization_witness :
    getCellFromPosition 14 { x := 7, y := 7 } =
      if 0 < brushIntensity 14 { x := 7, y := 7 }
      then some
        { row := (⌊(7 : ℝ) / 14⌋).toNat, col := (⌊(7 : ℝ) / 14⌋).toNat,
          intensity := brushIntensity 14 { x := 7, y := 7 } }
      else none :=
  (brush_intensity_characterization 14 { x := 7, y := 7 }
    (by
      rw [show ⌊(7 : ℝ) / 14⌋ = 0 from by norm_num [Int.floor_eq_iff]]
      norm_num)).1

theorem degenerate_inputs_no_error_witness :
    paintAtPosition 14 { x := -1, y := 7 } (List.replicate 784 0) =
      List.replicate 784 0 :=
  degenerate_inputs_no_error.1 14 { x := -1, y := 7 } (List.replicate 784 0)
    (getCellFromPosition_none_of_out 14 { x := -1, y := 7 }
      (Or.inl (by
        rw [show ⌊(-1 : ℝ) / 14⌋ = -1 from by norm_num [Int.floor_eq_iff]]
        norm_num)))

/-- C9: a single pointer sample modifies at most the one cell containing the
sample position: at every other row-major index the buffer value is
unchanged by `paintAtPosition`. -/
theorem sample_affects_one_cell (cellSize : ℝ) (p : Point) (g : List ℝ) (j : Nat)
    (hj : j ≠ cellIndex cellSize p) :
    (paintAtPosition cellSize p g).getD j 0 = g.getD j 0 := by
  unfold paintAtPosition
  cases hc : getCellFromPosition cellSize p with
  | none => rfl
  | some c =>
      obtain ⟨hr, hcc⟩ := getCellFromPosition_some_fields cellSize p c hc
      refine setCell_getD_ne g c.row c.col c.intensity ?_
      rw [hr, hcc]
      exact hj

theorem sample_affects_one_cell_witness :
    (paintAtPosition 14 { x := 7, y := 7 } (List.replicate 784 0)).getD 5 0 =
      (List.replicate 784 (0 : ℝ)).getD 5 0 :=
  sample_affects_one_cell 14 { x := 7, y := 7 } (List.replicate 784 0) 5
    (by
      unfold cellIndex
      rw [show ⌊(7 : ℝ) / 14⌋ = 0 from by norm_num [Int.floor_eq_iff]]
      norm_num)

end PixelGrid

namespace PixelGrid

theorem strokeSteps_pos (cellSize : ℝ) (prev pos : Point) :
    1 ≤ strokeSteps cellSize prev pos := by
  unfold strokeSteps
  have h := le_max_left (1 : ℤ) ⌈ptDist prev pos / (cellSize / 2)⌉
  omega

theorem ceil_le_strokeSteps (cellSize : ℝ) (prev pos : Point) :
    ⌈ptDist prev pos / (cellSize / 2)⌉ ≤ (strokeSteps cellSize prev pos : ℤ) := by
  unfold strokeSteps
  have h := le_max_right (1 : ℤ) ⌈ptDist prev pos / (cellSize / 2)⌉
  have h1 := le_max_left (1 : ℤ) ⌈ptDist prev pos / (cellSize / 2)⌉
  omega

theorem dist_div_steps_le (cellSize : ℝ) (hS : 0 < cellSize) (prev pos : Point) :
    ptDist prev pos / (strokeSteps cellSize prev pos : ℝ) ≤ cellSize / 2 := by
  have hn1 : (1 : ℝ) ≤ (strokeSteps cellSize prev pos : ℝ) := by
    exact_mod_cast strokeSteps_pos cellSize prev pos
  have hn0 : (0 : ℝ) < (strokeSteps cellSize prev pos : ℝ) := by linarith
  have hS2 : (0 : ℝ) < cellSize / 2 := by linarith
  have hceil : ptDist prev pos / (cellSize / 2) ≤ (strokeSteps cellSize prev pos : ℝ) := by
    calc ptDist prev pos / (cellSize / 2)
        ≤ (⌈ptDist prev pos / (cellSize / 2)⌉ : ℝ) := Int.le_ceil _
      _ ≤ ((strokeSteps cellSize prev pos : ℤ) : ℝ) := by
          exact_mod_cast ceil_le_strokeSteps cellSize prev pos
      _ = (strokeSteps cellSize prev pos : ℝ) := by push_cast; ring
  have hd : ptDist prev pos ≤ (strokeSteps cellSize prev pos : ℝ) * (cellSize / 2) :=
    (div_le_iff₀ hS2).mp hceil
  rw [div_le_iff₀ hn0]
  linarith

theorem lerp_spacing (cellSize : ℝ) (hS : 0 < cellSize) (prev pos : Point) (k : Nat) :
    ptDist (lerpPoint prev pos ((k : ℝ) / (strokeSteps cellSize prev pos : ℝ)))
        (lerpPoint prev pos (((k : ℝ) + 1) / (strokeSteps cellSize prev pos : ℝ)))
      ≤ cellSize / 2 := by
  have hn1 : (1 : ℝ) ≤ (strokeSteps cellSize prev pos : ℝ) := by
    exact_mod_cast strokeSteps_pos cellSize prev pos
  have hn0 : (strokeSteps cellSize prev pos : ℝ) ≠ 0 := by linarith
  have hnpos : (0 : ℝ) < (strokeSteps cellSize prev pos : ℝ) := by linarith
  have hx : (lerpPoint prev pos (((k : ℝ) + 1) / (strokeSteps cellSize prev pos : ℝ))).x -
      (lerpPoint prev pos ((k : ℝ) / (strokeSteps cellSize prev pos : ℝ))).x
      = (pos.x - prev.x) * (1 / (strokeSteps cellSize prev pos : ℝ)) := by
    simp only [lerpPoint]
    field_simp
    ring
  have hy : (lerpPoint prev pos (((k : ℝ) + 1) / (strokeSteps cellSize prev pos : ℝ))).y -
      (lerpPoint prev pos ((k : ℝ) / (strokeSteps cellSize prev pos : ℝ))).y
      = (pos.y - prev.y) * (1 / (strokeSteps cellSize prev pos : ℝ)) := by
    simp only [lerpPoint]
    field_simp
    ring
  unfold ptDist
  rw [hx, hy]
  have harg : ((pos.x - prev.x) * (1 / (strokeSteps cellSize prev pos : ℝ))) ^ 2 +
      ((pos.y - prev.y) * (1 / (strokeSteps cellSize prev pos : ℝ))) ^ 2
      = ((pos.x - prev.x) ^ 2 + (pos.y - prev.y) ^ 2) *
        (1 / (strokeSteps cellSize prev pos : ℝ)) ^ 2 := by ring
  have hinv : (0 : ℝ) ≤ 1 / (strokeSteps cellSize prev pos : ℝ) :=
    le_of_lt (by positivity)
  rw [harg, Real.sqrt_mul (by positivity) _, Real.sqrt_sq hinv]
  have hdist : Real.sqrt ((pos.x - prev.x) ^ 2 + (pos.y - prev.y) ^ 2)
      = ptDist prev pos := rfl
  rw [hdist]
  have hdiv := dist_div_steps_le cellSize hS prev pos
  rw [div_eq_mul_inv] at hdiv
  rw [one_div]
  exact hdiv

/-- C5: during an active stroke with a known previous position, the new
sample paints exactly the `steps = max(1, ceil(L / (S/2)))` sub-sample
points at parameters `t = k / steps`, `k = 1 .. steps`, along the segment;
`steps` is at least `ceil(L / (S/2))`, and consecutive sub-sample parameter
points (the previous position included) are at most `S/2` apart; with no
previous position only the current position is painted. -/
theorem stroke_interpolation (cellSize : ℝ) (hS : 0 < cellSize) (pos : Point)
    (s : GridState) :
    (∀ prev, s.lastPoint = some prev →
        paintLineToPosition cellSize pos s =
          { s with
              grid := (strokePoints cellSize prev pos).foldl
                (fun g q => paintAtPosition cellSize q g) s.grid,
              lastPoint := some pos } ∧
        (strokePoints cellSize prev pos).length = strokeSteps cellSize prev pos ∧
        1 ≤ strokeSteps cellSize prev pos ∧
        ⌈ptDist prev pos / (cellSize / 2)⌉ ≤ (strokeSteps cellSize prev pos : ℤ) ∧
        ∀ k : Nat,
          ptDist (lerpPoint prev pos ((k : ℝ) / (strokeSteps cellSize prev pos : ℝ)))
              (lerpPoint prev pos (((k : ℝ) + 1) / (strokeSteps cellSize prev pos : ℝ)))
            ≤ cellSize / 2) ∧
    (s.lastPoint = none →
        paintLineToPosition cellSize pos s =
          { s with
              grid := paintAtPosition cellSize pos s.grid,
              lastPoint := some pos }) := by
  constructor
  · intro prev hprev
    refine ⟨?_, ?_, strokeSteps_pos cellSize prev pos,
      ceil_le_strokeSteps cellSize prev pos,
      fun k => lerp_spacing cellSize hS prev pos k⟩
    · unfold paintLineToPosition
      rw [hprev]
    · unfold strokePoints
      rw [List.length_map, List.length_range]
  · intro hnone
    unfold paintLineToPosition
    rw [hnone]

theorem stroke_interpolation_witness :
    (strokePoints 14 { x := 0, y := 0 } { x := 3, y := 4 }).length
      = strokeSteps 14 { x := 0, y := 0 } { x := 3, y := 4 } :=
  ((stroke_interpolation 14 (by norm_num) { x := 3, y := 4 }
      { grid := List.replicate 784 0, isDrawing := true,
        lastPoint := some { x := 0, y := 0 } }).1
    { x := 0, y := 0 } rfl).2.1

end PixelGrid

namespace VersionApi

theorem fetchVersion_ok_of_ne (v cur : String) (h : v ≠ "") :
    fetchVersion (FetchOutcome.ok (some v)) cur = v := by
  show (if v = "" then cur else v) = v
  rw [if_neg h]

theorem one_dot_ne_empty (s : String) : "1." ++ s ≠ "" := by
  intro h
  have hl := congrArg String.length h
  rw [String.length_append] at hl
  have h2 : ("1." : String).length = 2 := rfl
  have h0 : ("" : String).length = 0 := rfl
  rw [h2, h0] at hl
  omega

theorem apiVersionGET_eq (gitOutput : Option String) :
    apiVersionGET gitOutput = "1." ++ toString (getMinorVersion gitOutput) := by
  unfold apiVersionGET
  rw [show (toString MAJOR_VERSION ++ "." : String) = "1." from rfl]

/-- C10: the version endpoint serves `"1.<mergeCount>"` — `"1." ++ n` when
git's trimmed output parses as the integer `n` — and every failure path
(git error, unparsable output, network error, non-ok HTTP response) makes
the version observed by the page the literal string `"1.0"`. -/
theorem version_endpoint (out : String) (n : Int) (cur : String) :
    (jsParseInt (jsTrim out) = some n →
        fetchVersion (FetchOutcome.ok (some (apiVersionGET (some out)))) cur
          = "1." ++ toString n) ∧
    (jsParseInt (jsTrim out) = none →
        fetchVersion (FetchOutcome.ok (some (apiVersionGET (some out)))) cur = "1.0") ∧
    fetchVersion (FetchOutcome.ok (some (apiVersionGET none))) cur = "1.0" ∧
    fetchVersion FetchOutcome.netError cur = "1.0" ∧
    fetchVersion FetchOutcome.httpError cur = "1.0" := by
  refine ⟨?_, ?_, ?_, rfl, rfl⟩
  · intro hp
    have hm : getMinorVersion (some out) = n := by
      show (match jsParseInt (jsTrim out) with | none => (0 : Int) | some n => n) = n
      rw [hp]
    rw [apiVersionGET_eq, hm, fetchVersion_ok_of_ne _ _ (one_dot_ne_empty _)]
  · intro hp
    have hm : getMinorVersion (some out) = 0 := by
      show (match jsParseInt (jsTrim out) with | none => (0 : Int) | some n => n) = (0 : Int)
      rw [hp]
    rw [apiVersionGET_eq, hm,
      show ("1." ++ toString (0 : Int) : String) = "1.0" from rfl]
    exact fetchVersion_ok_of_ne _ _ (by decide)
  · rw [apiVersionGET_eq,
      show getMinorVersion none = 0 from rfl,
      show ("1." ++ toString (0 : Int) : String) = "1.0" from rfl]
    exact fetchVersion_ok_of_ne _ _ (by decide)

theorem version_endpoint_witness :
    fetchVersion (FetchOutcome.ok (some (apiVersionGET (some "3")))) "1.0"
      = "1." ++ toString (3 : Int) :=
  (version_endpoint "3" 3 "1.0").1 (by rfl)

end VersionApi
